import Mathlib

/-!
Shallow embedding of the Tally-webhook → Attio relay handler
(`src/api/tally-webhook.js`, robust variant: the `handler` defined after the
`pickField`/`splitName`/`getId` helpers, lines 370–540 of the combined file),
together with the deduplicating `createDeal` of the companion variant
(`src/unnamed/part_001`, lines 104–161).

Pure helpers (`pickField`, `pickMulti`, `normalizeDomain`, `splitName`,
`titleCase`, `companyNameFromDomain`, `getId`) are translated directly from
the JavaScript.  The stateful handler is modelled as a function from the
request (method, environment, form fields) and an oracle of upstream CRM
responses to a record of the HTTP response, the outbound calls made, and the
deal-creation request body (if one was sent).  JavaScript `new URL` hostname
extraction is modelled for `scheme://host[/:?#]...` inputs, which covers
every URL shape the handler's callers produce.
-/

namespace TallyWebhook

/-- Lowercasing (JS `toLowerCase`), as a structural map over the
characters. -/
def strToLower (s : String) : String := ⟨s.data.map Char.toLower⟩

/-- Uppercasing (JS `toUpperCase`), as a structural map over the
characters. -/
def strToUpper (s : String) : String := ⟨s.data.map Char.toUpper⟩

/-- Leading-whitespace removal on a character list. -/
def wsDrop (l : List Char) : List Char := l.dropWhile Char.isWhitespace

/-- JS `trim`: strip whitespace from both ends. -/
def strTrim (s : String) : String :=
  ⟨(wsDrop ((wsDrop s.data).reverse)).reverse⟩

/-- JS `startsWith`. -/
def strStartsWith (s p : String) : Bool := p.data.isPrefixOf s.data

/-- JS `Array.join(sep)` over strings. -/
def strIntercalate (sep : String) (l : List String) : String :=
  ⟨((l.map String.data).intersperse sep.data).flatten⟩

/-- Dropping the first `n` characters (JS `slice(n)`). -/
def strDrop (s : String) (n : Nat) : String := ⟨s.data.drop n⟩

/-- Taking the first `n` characters. -/
def strTake (s : String) (n : Nat) : String := ⟨s.data.take n⟩

/-- Splitting at every character satisfying `p` (JS `split` with a
single-character-class regex); the pieces between separators, empties
included. -/
def strSplitBy (p : Char → Bool) (s : String) : List String :=
  (s.data.splitOnP p).map (fun l => (⟨l⟩ : String))

/-- Splitting at every occurrence of the character `c` (JS `split(c)`). -/
def strSplitOnChar (c : Char) (s : String) : List String :=
  (s.data.splitOn c).map (fun l => (⟨l⟩ : String))

/-- Replacing every occurrence of the character `a` by `b`
(JS `replace(/a/g, b)` for a single character). -/
def strReplaceChar (a b : Char) (s : String) : String :=
  ⟨s.data.map (fun c => if c == a then b else c)⟩

/-- An entry of a multi-value (checkbox) field: a bare string, an object
carrying a `label` string, or a null entry. -/
inductive MultiItem
  | plain (s : String)
  | labeled (label : String)
  | nullItem
deriving DecidableEq

/-- A Tally field value: a string, an array of entries, or null/undefined. -/
inductive FieldValue
  | vstr (s : String)
  | varr (items : List MultiItem)
  | vnull
deriving DecidableEq

/-- One `{label, value}` pair of the submission's `data.fields` array.
The label may be absent (JS `f.label || ''`). -/
structure Field where
  label : Option String
  value : FieldValue
deriving DecidableEq

/-- JS truthiness of a field value: `''`, `null`/`undefined` are falsy;
arrays (even empty) are truthy. -/
def FieldValue.isFalsy : FieldValue → Bool
  | .vstr s => s == ""
  | .vnull => true
  | .varr _ => false

/-- A value that the handler can safely treat as text (the handler calls
`.trim()` on picked values, which would throw on an array). -/
def FieldValue.isTextual : FieldValue → Bool
  | .varr _ => false
  | _ => true

/-- Reading a picked value as a string (`.vstr s` reads as `s`; the handler
is only applied to textual fields, see `textualFields`). -/
def FieldValue.asString : FieldValue → String
  | .vstr s => s
  | _ => ""

/-- All field values of a submission are textual. -/
def textualFields (fields : List Field) : Bool :=
  fields.all (fun f => f.value.isTextual)

/-- Case-insensitive label comparison used by `pickField`/`pickMulti`:
`(f.label || '').toLowerCase() === label.toLowerCase()`. -/
def labelMatches (f : Field) (label : String) : Bool :=
  strToLower (f.label.getD "") == strToLower label

/-- `pickField` (tally-webhook.js line 373-375):
`fields.find(f => (f.label || '').toLowerCase() === label.toLowerCase())?.value || ''`.
A missing field, or a falsy stored value, yields `''`. -/
def pickField (fields : List Field) (label : String) : FieldValue :=
  match fields.find? (fun f => labelMatches f label) with
  | some f => if f.value.isFalsy then .vstr "" else f.value
  | none => .vstr ""

/-- The per-entry extraction of `pickMulti`: `v?.label ?? v`, then
`filter(Boolean)` (empty strings and null entries are dropped). -/
def MultiItem.extract : MultiItem → Option String
  | .plain s => if s = "" then none else some s
  | .labeled l => if l = "" then none else some l
  | .nullItem => none

/-- The value-level computation of `pickMulti` on a found field:
an array maps each entry through `v?.label ?? v` and filters falsy results;
a string yields a one-element list; anything else yields `[]`. -/
def multiOf : FieldValue → List String
  | .vstr s => [s]
  | .varr items => items.filterMap MultiItem.extract
  | .vnull => []

/-- `pickMulti` (tally-webhook.js lines 18-23): find the field by
case-insensitive label; if absent return `[]`, otherwise extract the
entries of its value. -/
def pickMulti (fields : List Field) (label : String) : List String :=
  match fields.find? (fun f => labelMatches f label) with
  | none => []
  | some f => multiOf f.value

/-- `getFieldValue` of the middle variant (tally-webhook.js lines 336-339):
exact, case-sensitive label match, returning `null` when the field is
missing. -/
def getFieldValue (fields : List Field) (label : String) : Option FieldValue :=
  (fields.find? (fun f => f.label == some label)).map (fun f => f.value)

/-- A character admissible in a URL host (WHATWG forbidden host code
points, by which `new URL` rejects a malformed host). -/
def validHostChar (c : Char) : Bool :=
  !(c.isWhitespace || c == '#' || c == '%' || c == '/' || c == ':' ||
    c == '<' || c == '>' || c == '?' || c == '@' || c == '[' ||
    c == '\\' || c == ']' || c == '^' || c == '|')

/-- Splitting the characters of a URL at the first occurrence of `://`:
the part before and the part after, or `none` when `://` does not occur. -/
def breakOnSchemeSep : List Char → Option (List Char × List Char)
  | [] => none
  | ':' :: '/' :: '/' :: rest => some ([], rest)
  | c :: cs => (breakOnSchemeSep cs).map (fun p => (c :: p.1, p.2))

/-- Hostname extraction of JS `new URL(url).hostname` modelled for
`scheme://host[/:?#]...` inputs: the text between `"://"` and the first
`/`, `:`, `?` or `#`, lowercased; `none` (a parse failure) when there is
no scheme, the host is empty, or the host contains a forbidden character. -/
def hostOf (url : String) : Option String :=
  match breakOnSchemeSep url.data with
  | none => none
  | some (schemeChars, restChars) =>
      let hostChars := restChars.takeWhile
        (fun c => !(c == '/' || c == ':' || c == '?' || c == '#'))
      if schemeChars.isEmpty || hostChars.isEmpty ||
          !hostChars.all validHostChar then none
      else some ⟨hostChars.map Char.toLower⟩

/-- `normalizeDomain` (tally-webhook.js lines 377-383): empty input yields
`''`; otherwise prepend `https://` unless the input starts with `http`,
take the URL hostname, strip one leading `www.`; parse failure yields `''`. -/
def normalizeDomain (raw : String) : String :=
  if raw = "" then ""
  else
    let url := if strStartsWith raw "http" then raw else "https://" ++ raw
    match hostOf url with
    | none => ""
    | some h => if strStartsWith h "www." then strDrop h 4 else h

/-- The whitespace tokens of a full name:
`full.trim().split(/\s+/).filter(Boolean)`. -/
def nameTokens (full : String) : List String :=
  (strSplitBy Char.isWhitespace (strTrim full)).filter (fun s => s ≠ "")

/-- `splitName` (tally-webhook.js lines 385-391): first token is the first
name, the remaining tokens joined by single spaces are the last name;
missing parts default to `"-"`. -/
def splitName (full : String) : String × String :=
  match nameTokens full with
  | [] => ("-", "-")
  | first :: rest =>
      (if first = "" then "-" else first,
       if rest.isEmpty then "-" else strIntercalate " " rest)

/-- `titleCase` (tally-webhook.js lines 393-399): split on whitespace,
`-`, `_`, `.`; capitalize each word; join with single spaces. -/
def titleCase (s : String) : String :=
  let words := (strSplitBy
      (fun c => c.isWhitespace || c == '-' || c == '_' || c == '.') s).filter
    (fun w => w ≠ "")
  strIntercalate " "
    (words.map (fun w => strToUpper (strTake w 1) ++ strToLower (strDrop w 1)))

/-- `companyNameFromDomain` (tally-webhook.js lines 400-403): drop the last
dot-component, join the rest with spaces (falling back to the first
component), replace `-` with spaces, and title-case. -/
def companyNameFromDomain (domain : String) : String :=
  let parts := strSplitOnChar '.' domain
  let core0 := strIntercalate " " parts.dropLast
  let core := if core0 = "" then parts.headD "" else core0
  titleCase (strReplaceChar '-' ' ' core)

/-- The fixed denylist of consumer email providers
(tally-webhook.js lines 405-408). -/
def PERSONAL_DOMAINS : List String :=
  ["gmail.com", "yahoo.com", "outlook.com", "hotmail.com", "icloud.com",
   "aol.com", "proton.me", "protonmail.com", "live.com", "me.com", "mail.com"]

/-- The domain portion of an email address:
`(email.split('@')[1] || '').toLowerCase()`. -/
def emailDomainOf (email : String) : String :=
  strToLower ((strSplitOnChar '@' email).getD 1 "")

/-- The candidate domain before denylist filtering
(tally-webhook.js line 446): the normalized website, or as fallback the
email's domain portion. -/
def candidateDomain (website email : String) : String :=
  if normalizeDomain website = "" then emailDomainOf email
  else normalizeDomain website

/-- The resolved domain (tally-webhook.js lines 446-447): the candidate
domain, discarded (set to `''`) when it is on `PERSONAL_DOMAINS`. -/
def resolveDomain (website email : String) : String :=
  if PERSONAL_DOMAINS.contains (candidateDomain website email) then ""
  else candidateDomain website email

/-- One node of an Attio JSON response as far as `getId` inspects it:
a string `id`, a nested `record.id`, and the `id` of the head of a
`records` array (each `none` when absent or not a string). -/
structure IdNode where
  id : Option String
  recordId : Option String
  recordsHeadId : Option String
deriving DecidableEq

/-- An Attio response body as far as `getId` inspects it: optional `data`
and `record` objects, plus the fields of the payload itself. -/
structure Payload where
  data : Option IdNode
  record : Option IdNode
  top : IdNode
deriving DecidableEq

/-- The id-field fallback chain of `getId` on the selected node. -/
def IdNode.extractId (d : IdNode) : Option String :=
  match d.id with
  | some s => some s
  | none =>
      match d.recordId with
      | some s => some s
      | none => d.recordsHeadId

/-- `getId` (tally-webhook.js lines 415-423): `null` payload yields `null`;
otherwise inspect `payload.data || payload.record || payload` for `d.id`,
`d.record.id`, or `d.records[0].id`, in that order. -/
def getId : Option Payload → Option String
  | none => none
  | some p => (p.data.getD (p.record.getD p.top)).extractId

/-- An upstream HTTP response: status, parsed JSON body (`none` when the
body is not JSON), and the raw text. -/
structure AttioResp where
  status : Nat
  body : Option Payload
  raw : String
deriving DecidableEq

/-- `fetch` response `ok`: status in 200-299. -/
def AttioResp.ok (r : AttioResp) : Bool :=
  decide (200 ≤ r.status) && decide (r.status < 300)

/-- The oracle of upstream responses for one run: company upsert, person
upsert, person create fallback, deal create (each used only if the
corresponding call is reached). -/
structure Upstream where
  company : AttioResp
  personUpsert : AttioResp
  personCreate : AttioResp
  deal : AttioResp
deriving DecidableEq

/-- The environment configuration read by the handler. -/
structure Env where
  attioToken : Option String
  initialStage : Option String
deriving DecidableEq

/-- Which outbound CRM calls a run performed. -/
structure CallLog where
  companyCalled : Bool
  personUpsertCalled : Bool
  personCreateCalled : Bool
  dealCalled : Bool
deriving DecidableEq

/-- The person association of a deal-creation request: by record id
(strong link) or by email address (weak link). -/
inductive PeopleLink
  | byId (id : String)
  | byEmail (email : String)
deriving DecidableEq

/-- The company association of a deal-creation request: by record id
(strong link) or by domain (weak link). -/
inductive CompanyLink
  | byId (id : String)
  | byDomain (domain : String)
deriving DecidableEq

/-- The deal-creation request body (`dealValues`,
tally-webhook.js lines 515-526). -/
structure DealValues where
  name : String
  stage : String
  associated_people : PeopleLink
  associated_company : Option CompanyLink
deriving DecidableEq

/-- The handler's HTTP response: status, and on 200 the reported ids; on
502 the diagnostic detail. -/
structure HResponse where
  status : Nat
  ok : Bool := false
  personId : Option String := none
  companyId : Option String := none
  dealId : Option String := none
  detail : Option String := none
deriving DecidableEq

/-- Everything observable about one run: the HTTP response, the outbound
calls made, and the deal-creation request body if one was sent. -/
structure RunOut where
  resp : HResponse
  calls : CallLog
  dealReq : Option DealValues
deriving DecidableEq

/-- No outbound calls. -/
def noCalls : CallLog :=
  { companyCalled := false, personUpsertCalled := false,
    personCreateCalled := false, dealCalled := false }

/-- A picked field read as trimmed text, as the handler does
(`pickField(fields, label).trim()`). -/
def fieldStr (fields : List Field) (label : String) : String :=
  strTrim (pickField fields label).asString

/-- The handler's extracted email (label `Email Address`). -/
def emailOf (fields : List Field) : String := fieldStr fields "Email Address"

/-- The handler's extracted full name (label `Full Name`). -/
def fullNameOf (fields : List Field) : String := fieldStr fields "Full Name"

/-- The handler's extracted company name (label `Company Name`). -/
def companyNameOf (fields : List Field) : String := fieldStr fields "Company Name"

/-- The handler's extracted website (label `Company Website`). -/
def websiteOf (fields : List Field) : String := fieldStr fields "Company Website"

/-- The deal-creation request body (tally-webhook.js lines 511-526):
name `Inbound — {fullName || email}{' @ ' + displayCompany}?`, the
configured stage, person linked by id when resolved else by email, and,
when a domain exists, company linked by id when resolved else by domain. -/
def mkDealValues (initialStage fullName companyName email domain : String)
    (personId companyId : Option String) : DealValues :=
  let displayCompany :=
    if domain = "" then ""
    else if companyName = "" then companyNameFromDomain domain else companyName
  let dealName :=
    "Inbound — " ++ (if fullName = "" then email else fullName) ++
      (if displayCompany = "" then "" else " @ " ++ displayCompany)
  { name := dealName,
    stage := initialStage,
    associated_people :=
      match personId with
      | some pid => .byId pid
      | none => .byEmail email,
    associated_company :=
      if domain = "" then none
      else some (match companyId with
                 | some cid => CompanyLink.byId cid
                 | none => CompanyLink.byDomain domain) }

/-- The final deal-creation step (tally-webhook.js lines 528-535): send
the request; non-ok yields 502 with the raw body as detail, ok yields 200
reporting `personId`, `companyId` and `getId` of the deal response. -/
def finishDeal (companyCalled personCreateCalled : Bool) (dv : DealValues)
    (dealResp : AttioResp) (personId companyId : Option String) : RunOut :=
  let calls : CallLog :=
    { companyCalled := companyCalled, personUpsertCalled := true,
      personCreateCalled := personCreateCalled, dealCalled := true }
  if dealResp.ok then
    { resp := { status := 200, ok := true, personId := personId,
                companyId := companyId, dealId := getId dealResp.body },
      calls := calls, dealReq := some dv }
  else
    { resp := { status := 502, detail := some dealResp.raw },
      calls := calls, dealReq := some dv }

/-- The validated part of a run (tally-webhook.js lines 443-535): resolve
the domain with denylist filtering; upsert the company only when a domain
remains (failure non-fatal, its id kept only on success); upsert the
person, on failure retry once via the create endpoint, and fail the run
with 502 when both attempts fail; finally create the deal and report 200
with the resolved ids. -/
def processSubmission (initialStage : String) (fields : List Field)
    (up : Upstream) : RunOut :=
  let email := emailOf fields
  let fullName := fullNameOf fields
  let companyName := companyNameOf fields
  let domain := resolveDomain (websiteOf fields) email
  let companyCalled := decide (domain ≠ "")
  let companyId : Option String :=
    if domain ≠ "" ∧ up.company.ok = true then getId up.company.body else none
  if up.personUpsert.ok then
    finishDeal companyCalled false
      (mkDealValues initialStage fullName companyName email domain
        (getId up.personUpsert.body) companyId)
      up.deal (getId up.personUpsert.body) companyId
  else if up.personCreate.ok then
    finishDeal companyCalled true
      (mkDealValues initialStage fullName companyName email domain
        (getId up.personCreate.body) companyId)
      up.deal (getId up.personCreate.body) companyId
  else
    { resp := { status := 502,
                detail := some (if up.personUpsert.raw ≠ ""
                                then up.personUpsert.raw
                                else up.personCreate.raw) },
      calls := { companyCalled := companyCalled,
                 personUpsertCalled := true,
                 personCreateCalled := true, dealCalled := false },
      dealReq := none }

/-- The robust webhook handler (tally-webhook.js lines 425-540): reject
non-POST (405) and a missing token (500); extract the fields; reject a
missing email (400); otherwise run the upsert-and-link pipeline. -/
def handler (method : String) (env : Env) (fields : List Field)
    (up : Upstream) : RunOut :=
  if method ≠ "POST" then
    { resp := { status := 405 }, calls := noCalls, dealReq := none }
  else
    match env.attioToken with
    | none => { resp := { status := 500 }, calls := noCalls, dealReq := none }
    | some _ =>
      if emailOf fields = "" then
        { resp := { status := 400 }, calls := noCalls, dealReq := none }
      else
        processSubmission (env.initialStage.getD "Prospect") fields up

/-- True when the run's deal request (if any) carries no company
association. -/
def dealHasNoCompanyLink (out : RunOut) : Bool :=
  match out.dealReq with
  | none => true
  | some dv => dv.associated_company.isNone

/-- The company association of the run's deal request, when one was sent. -/
def dealCompanyLinkOf (out : RunOut) : Option CompanyLink :=
  match out.dealReq with
  | none => none
  | some dv => dv.associated_company

/-- The person association of the run's deal request, when one was sent. -/
def dealPeopleLinkOf (out : RunOut) : Option PeopleLink :=
  match out.dealReq with
  | none => none
  | some dv => some dv.associated_people

/-- A deal record as far as deduplication is concerned: its name and the
optional `external_source_id` value. -/
structure DealRec where
  name : String
  externalSourceId : Option String
deriving DecidableEq

/-- The deals existing in the CRM workspace. -/
structure CrmState where
  deals : List DealRec
deriving DecidableEq

/-- `createDeal` (src/unnamed/part_001 lines 104-161): when an external id
is supplied and a deal already carries it (`external_source_id` `is`
query), return the first existing record and leave the state unchanged;
otherwise create a new deal, stamping it with the external id when one
was supplied. -/
def createDeal (st : CrmState) (dealName : String)
    (externalId : Option String) : CrmState × DealRec :=
  match externalId with
  | some eid =>
      match st.deals.find? (fun d => d.externalSourceId == some eid) with
      | some existing => (st, existing)
      | none =>
          let newDeal : DealRec := { name := dealName, externalSourceId := some eid }
          ({ deals := st.deals ++ [newDeal] }, newDeal)
  | none =>
      let newDeal : DealRec := { name := dealName, externalSourceId := none }
      ({ deals := st.deals ++ [newDeal] }, newDeal)

/-- The handler's choice of external id
(src/unnamed/part_001 line 209):
`payload?.data?.responseId || payload?.data?.submissionId || null`. -/
def chooseExternalId (responseId submissionId : Option String) : Option String :=
  let r := responseId.getD ""
  if r ≠ "" then some r
  else
    let s := submissionId.getD ""
    if s ≠ "" then some s else none

/-- A successful upstream response with an unrecognized (non-JSON) body. -/
def okResp : AttioResp := { status := 200, body := none, raw := "{}" }

/-- A failed upstream response (HTTP 500). -/
def failResp : AttioResp := { status := 500, body := none, raw := "server error" }

/-- A failed upstream response with an authentication error (HTTP 401). -/
def authFailResp : AttioResp := { status := 401, body := none, raw := "unauthorized" }

/-- An oracle where all calls succeed. -/
def upAllOk : Upstream :=
  { company := okResp, personUpsert := okResp, personCreate := okResp, deal := okResp }

/-- An oracle where the person upsert fails with an auth error while
everything else succeeds. -/
def upAuthFail : Upstream :=
  { company := okResp, personUpsert := authFailResp, personCreate := okResp, deal := okResp }

/-- An oracle where both person calls fail. -/
def upPersonDead : Upstream :=
  { company := okResp, personUpsert := failResp, personCreate := failResp, deal := okResp }

/-- An oracle where the company upsert fails and everything else succeeds. -/
def upCompanyFail : Upstream :=
  { company := failResp, personUpsert := okResp, personCreate := okResp, deal := okResp }

/-- A configured environment with a token. -/
def envTok : Env := { attioToken := some "tok", initialStage := none }

/-- A one-field submission carrying only an email address. -/
def emailOnlyFields (addr : String) : List Field :=
  [{ label := some "Email Address", value := .vstr addr }]

/-- A submission from a personal (gmail.com) address with no website. -/
def gmailFields : List Field := emailOnlyFields "jane@gmail.com"

/-- A submission from a corporate address. -/
def corpFields : List Field := emailOnlyFields "ada@cleric.io"

/-- A sample email field used to exercise the extractor. -/
def fEx : Field := { label := some "Email Address", value := .vstr "ada@cleric.io" }

/-- A sample deal carrying an external id. -/
def dealR1 : DealRec := { name := "d0", externalSourceId := some "r1" }

/-- A workspace already holding `dealR1`. -/
def crmWith : CrmState := { deals := [dealR1] }

/-- An empty workspace. -/
def crmEmpty : CrmState := { deals := [] }

theorem find?_first {α : Type} (p : α → Bool) (pre post : List α) (a : α)
    (hpre : ∀ x ∈ pre, p x = false) (ha : p a = true) :
    (pre ++ a :: post).find? p = some a := by
  induction pre with
  | nil => simp [List.find?_cons, ha]
  | cons b bs ih =>
      have hb : p b = false := hpre b (List.mem_cons_self b bs)
      simp only [List.cons_append, List.find?_cons, hb, cond_false]
      exact ih (fun x hx => hpre x (List.mem_cons_of_mem b hx))

theorem handler_post_eq (env : Env) (fields : List Field) (up : Upstream)
    (tok : String) (htok : env.attioToken = some tok)
    (hemail : emailOf fields ≠ "") :
    handler "POST" env fields up
      = processSubmission (env.initialStage.getD "Prospect") fields up := by
  unfold handler
  rw [htok]
  simp [hemail]

theorem processSubmission_status (stage : String) (fields : List Field)
    (up : Upstream) :
    (processSubmission stage fields up).resp.status = 200 ∨
    (processSubmission stage fields up).resp.status = 502 := by
  unfold processSubmission finishDeal
  cases h1 : up.personUpsert.ok <;> cases h2 : up.personCreate.ok <;>
    cases h3 : up.deal.ok <;> simp [h1, h2, h3]

theorem emailOf_blank (fields : List Field)
    (h : ∀ f ∈ fields, labelMatches f "Email Address" = true →
          strTrim f.value.asString = "") :
    emailOf fields = "" := by
  unfold emailOf fieldStr pickField
  cases hf : fields.find? (fun f => labelMatches f "Email Address") with
  | none => rfl
  | some f =>
      have hmem := List.mem_of_find?_eq_some hf
      have hmatch := List.find?_some hf
      have hval := h f hmem hmatch
      by_cases hfal : f.value.isFalsy = true
      · simp only [hfal, if_true]
        rfl
      · simp only [hfal, if_false, Bool.false_eq_true]
        exact hval

/-- C1: a submission whose candidate domain (from the website, or as
fallback the email's domain portion) is on the personal-email-provider
denylist resolves its domain to the empty string, triggers no Company
upsert call, and its Deal request carries no company association. -/
theorem personal_domain_blocks_company (env : Env) (fields : List Field)
    (up : Upstream) (tok : String)
    (htok : env.attioToken = some tok)
    (htext : textualFields fields = true)
    (hemail : emailOf fields ≠ "")
    (hper : PERSONAL_DOMAINS.contains
        (candidateDomain (websiteOf fields) (emailOf fields)) = true) :
    resolveDomain (websiteOf fields) (emailOf fields) = "" ∧
    (handler "POST" env fields up).calls.companyCalled = false ∧
    dealHasNoCompanyLink (handler "POST" env fields up) = true := by
  have hdom : resolveDomain (websiteOf fields) (emailOf fields) = "" := by
    unfold resolveDomain
    exact if_pos hper
  rw [handler_post_eq env fields up tok htok hemail]
  refine ⟨hdom, ?_, ?_⟩ <;>
  · unfold processSubmission finishDeal
    cases h1 : up.personUpsert.ok <;> cases h2 : up.personCreate.ok <;>
      cases h3 : up.deal.ok <;>
      simp [h1, h2, h3, hdom, mkDealValues, dealHasNoCompanyLink]

/-- C1 witness: for the submission `jane@gmail.com` with no website, with
all upstream calls succeeding, the hypotheses hold and the handler makes
no company call and links no company. -/
theorem personal_domain_blocks_company_witness :
    PERSONAL_DOMAINS.contains
        (candidateDomain (websiteOf gmailFields) (emailOf gmailFields)) = true ∧
    (resolveDomain (websiteOf gmailFields) (emailOf gmailFields) = "" ∧
     (handler "POST" envTok gmailFields upAllOk).calls.companyCalled = false ∧
     dealHasNoCompanyLink (handler "POST" envTok gmailFields upAllOk) = true) :=
  ⟨by decide,
   personal_domain_blocks_company envTok gmailFields upAllOk "tok" rfl
     (by decide) (by decide) (by decide)⟩

/-- C2: when the Company upsert call fails but the Person upsert and the
Deal creation succeed, the handler still responds 200, reports
`companyId` as null, and the Deal's company association is the weak link
by domain, not by record id. -/
theorem company_failure_nonfatal (env : Env) (fields : List Field)
    (up : Upstream) (tok : String)
    (htok : env.attioToken = some tok)
    (htext : textualFields fields = true)
    (hemail : emailOf fields ≠ "")
    (hdom : resolveDomain (websiteOf fields) (emailOf fields) ≠ "")
    (hcfail : up.company.ok = false)
    (hpok : up.personUpsert.ok = true)
    (hdok : up.deal.ok = true) :
    (handler "POST" env fields up).resp.status = 200 ∧
    (handler "POST" env fields up).resp.companyId = none ∧
    dealCompanyLinkOf (handler "POST" env fields up)
      = some (CompanyLink.byDomain
          (resolveDomain (websiteOf fields) (emailOf fields))) := by
  rw [handler_post_eq env fields up tok htok hemail]
  unfold processSubmission finishDeal
  simp [hpok, hdok, hcfail, hdom, mkDealValues, dealCompanyLinkOf]

/-- C2 witness: a corporate submission with a failing company upsert and
successful person and deal calls yields 200, a null companyId, and a
domain-linked company. -/
theorem company_failure_nonfatal_witness :
    (resolveDomain (websiteOf corpFields) (emailOf corpFields) ≠ "" ∧
     upCompanyFail.company.ok = false ∧
     upCompanyFail.personUpsert.ok = true ∧ upCompanyFail.deal.ok = true) ∧
    ((handler "POST" envTok corpFields upCompanyFail).resp.status = 200 ∧
     (handler "POST" envTok corpFields upCompanyFail).resp.companyId = none ∧
     dealCompanyLinkOf (handler "POST" envTok corpFields upCompanyFail)
       = some (CompanyLink.byDomain
           (resolveDomain (websiteOf corpFields) (emailOf corpFields)))) :=
  ⟨by decide,
   company_failure_nonfatal envTok corpFields upCompanyFail "tok" rfl
     (by decide) (by decide) (by decide) (by decide) (by decide) (by decide)⟩

/-- C3: when the Person upsert fails and the local create fallback also
fails, the handler makes no Deal-creation call, sends no deal request,
and responds 502 carrying diagnostic detail. -/
theorem person_failure_fatal (env : Env) (fields : List Field)
    (up : Upstream) (tok : String)
    (htok : env.attioToken = some tok)
    (htext : textualFields fields = true)
    (hemail : emailOf fields ≠ "")
    (hp1 : up.personUpsert.ok = false)
    (hp2 : up.personCreate.ok = false) :
    (handler "POST" env fields up).resp.status = 502 ∧
    (handler "POST" env fields up).resp.detail.isSome = true ∧
    (handler "POST" env fields up).calls.dealCalled = false ∧
    (handler "POST" env fields up).dealReq = none := by
  rw [handler_post_eq env fields up tok htok hemail]
  unfold processSubmission
  simp [hp1, hp2]

/-- C3 witness: with both person calls failing, the run ends 502 with
detail and no deal request. -/
theorem person_failure_fatal_witness :
    (upPersonDead.personUpsert.ok = false ∧
     upPersonDead.personCreate.ok = false) ∧
    ((handler "POST" envTok corpFields upPersonDead).resp.status = 502 ∧
     (handler "POST" envTok corpFields upPersonDead).resp.detail.isSome = true ∧
     (handler "POST" envTok corpFields upPersonDead).calls.dealCalled = false ∧
     (handler "POST" envTok corpFields upPersonDead).dealReq = none) :=
  ⟨by decide,
   person_failure_fatal envTok corpFields upPersonDead "tok" rfl
     (by decide) (by decide) (by decide) (by decide)⟩

/-- C4: a POST whose fields carry no non-empty email-labeled value is
rejected with 400 and zero outbound CRM calls, and email is the only
input whose absence yields the 400 validation failure: any submission
with a non-empty email never gets a 400. -/
theorem missing_email_rejected (env : Env) (fields fields2 : List Field)
    (up up2 : Upstream) (tok : String)
    (htok : env.attioToken = some tok)
    (htext : textualFields fields = true)
    (hnoemail : ∀ f ∈ fields, labelMatches f "Email Address" = true →
        strTrim f.value.asString = "")
    (hemail2 : emailOf fields2 ≠ "") :
    (handler "POST" env fields up).resp.status = 400 ∧
    (handler "POST" env fields up).calls = noCalls ∧
    (handler "POST" env fields up).dealReq = none ∧
    (handler "POST" env fields2 up2).resp.status ≠ 400 := by
  have he := emailOf_blank fields hnoemail
  refine ⟨?_, ?_, ?_, ?_⟩
  · unfold handler; rw [htok]; simp [he]
  · unfold handler; rw [htok]; simp [he]
  · unfold handler; rw [htok]; simp [he]
  · rw [handler_post_eq env fields2 up2 tok htok hemail2]
    rcases processSubmission_status (env.initialStage.getD "Prospect") fields2 up2
      with h | h <;> omega

/-- C4 witness: an empty field list is rejected with 400 and no calls,
while a corporate submission is never rejected with 400. -/
theorem missing_email_rejected_witness :
    ((∀ f ∈ ([] : List Field), labelMatches f "Email Address" = true →
        strTrim f.value.asString = "") ∧ emailOf corpFields ≠ "") ∧
    ((handler "POST" envTok [] upAllOk).resp.status = 400 ∧
     (handler "POST" envTok [] upAllOk).calls = noCalls ∧
     (handler "POST" envTok [] upAllOk).dealReq = none ∧
     (handler "POST" envTok corpFields upAllOk).resp.status ≠ 400) :=
  ⟨⟨by decide, by decide⟩,
   missing_email_rejected envTok [] corpFields upAllOk upAllOk "tok" rfl
     (by decide) (by decide) (by decide)⟩

/-- C5: `createDeal` is idempotent in the external identifier: when a
deal already carries the supplied external id it is returned unchanged
and the state is untouched, and replaying the same creation twice from a
state without the id produces exactly one deal carrying it. -/
theorem createDeal_idempotent (st st2 : CrmState) (nm nm2 nm3 : String)
    (eid : String) (d0 : DealRec)
    (hfound : st.deals.find? (fun d => d.externalSourceId == some eid) = some d0)
    (hnone : (st2.deals.filter
        (fun d => d.externalSourceId == some eid)).length = 0) :
    createDeal st nm (some eid) = (st, d0) ∧
    (createDeal (createDeal st2 nm2 (some eid)).1 nm3 (some eid)).1
        = (createDeal st2 nm2 (some eid)).1 ∧
    (createDeal (createDeal st2 nm2 (some eid)).1 nm3 (some eid)).2
        = (createDeal st2 nm2 (some eid)).2 ∧
    ((createDeal (createDeal st2 nm2 (some eid)).1 nm3 (some eid)).1.deals.filter
        (fun d => d.externalSourceId == some eid)).length = 1 := by
  have hnil : st2.deals.filter (fun d => d.externalSourceId == some eid) = [] :=
    List.length_eq_zero.mp hnone
  have hall : ∀ d ∈ st2.deals, ¬ ((d.externalSourceId == some eid) = true) :=
    List.filter_eq_nil_iff.mp hnil
  have hall' : ∀ d ∈ st2.deals, (d.externalSourceId == some eid) = false := by
    intro d hd
    simpa using hall d hd
  have hfind2 : st2.deals.find? (fun d => d.externalSourceId == some eid) = none :=
    List.find?_eq_none.mpr hall
  have hpred : ((({ name := nm2, externalSourceId := some eid } : DealRec)).externalSourceId
      == some eid) = true := by simp
  have hstep1 : createDeal st2 nm2 (some eid)
      = ({ deals := st2.deals ++ [{ name := nm2, externalSourceId := some eid }] },
         { name := nm2, externalSourceId := some eid }) := by
    simp only [createDeal, hfind2]
  have hfind3 : (st2.deals ++
        [({ name := nm2, externalSourceId := some eid } : DealRec)]).find?
      (fun d => d.externalSourceId == some eid)
      = some { name := nm2, externalSourceId := some eid } :=
    find?_first _ st2.deals [] _ hall' hpred
  have hstep2 : createDeal
        { deals := st2.deals ++ [{ name := nm2, externalSourceId := some eid }] }
        nm3 (some eid)
      = ({ deals := st2.deals ++ [{ name := nm2, externalSourceId := some eid }] },
         { name := nm2, externalSourceId := some eid }) := by
    simp only [createDeal, hfind3]
  refine ⟨?_, ?_, ?_, ?_⟩
  · simp only [createDeal, hfound]
  · simp only [hstep1, hstep2]
  · simp only [hstep1, hstep2]
  · simp only [hstep1, hstep2]
    rw [List.filter_append, hnil]
    simp [hpred]

/-- C5 witness: with a deal already carrying `r1` the creation is a
no-op, and replaying a creation on an empty workspace leaves exactly one
deal carrying `r1`. -/
theorem createDeal_idempotent_witness :
    ((crmWith.deals.find? (fun d => d.externalSourceId == some "r1") = some dealR1) ∧
     (crmEmpty.deals.filter (fun d => d.externalSourceId == some "r1")).length = 0) ∧
    (createDeal crmWith "n1" (some "r1") = (crmWith, dealR1) ∧
     (createDeal (createDeal crmEmpty "n2" (some "r1")).1 "n3" (some "r1")).1
        = (createDeal crmEmpty "n2" (some "r1")).1 ∧
     (createDeal (createDeal crmEmpty "n2" (some "r1")).1 "n3" (some "r1")).2
        = (createDeal crmEmpty "n2" (some "r1")).2 ∧
     ((createDeal (createDeal crmEmpty "n2" (some "r1")).1 "n3" (some "r1")).1.deals.filter
        (fun d => d.externalSourceId == some "r1")).length = 1) :=
  ⟨⟨by decide, by decide⟩,
   createDeal_idempotent crmWith crmEmpty "n1" "n2" "n3" "r1" dealR1
     (by decide) (by decide)⟩

/-- C6 counterexample: the claim says that on an auth error no
alternate-encoding retry is made, but on a 401 (auth) person-upsert
failure the handler does issue the fallback create call. -/
theorem auth_error_retry_counterexample :
    authFailResp.status = 401 ∧
    upAuthFail.personUpsert = authFailResp ∧
    AttioResp.ok authFailResp = false ∧
    (handler "POST" envTok gmailFields upAuthFail).calls.personCreateCalled = true := by
  refine ⟨rfl, rfl, rfl, ?_⟩
  decide

/-- C6 amended: the person upsert is retried exactly once via the create
endpoint whenever the upsert fails, regardless of the failure kind
(schema, auth or otherwise); it is never retried after a success; and
only when both attempts fail does the failure propagate as 502. -/
theorem person_upsert_retry_unconditional (env : Env) (fields : List Field)
    (up up2 : Upstream) (tok : String)
    (htok : env.attioToken = some tok)
    (htext : textualFields fields = true)
    (hemail : emailOf fields ≠ "")
    (h2a : up2.personUpsert.ok = false)
    (h2b : up2.personCreate.ok = false) :
    (handler "POST" env fields up).calls.personCreateCalled
        = !up.personUpsert.ok ∧
    (handler "POST" env fields up2).resp.status = 502 := by
  constructor
  · rw [handler_post_eq env fields up tok htok hemail]
    unfold processSubmission finishDeal
    cases h1 : up.personUpsert.ok <;> cases h2 : up.personCreate.ok <;>
      cases h3 : up.deal.ok <;> simp [h1, h2, h3]
  · rw [handler_post_eq env fields up2 tok htok hemail]
    unfold processSubmission
    simp [h2a, h2b]

/-- C6 amended witness: on an auth-failed upsert the retry is made, and
with both attempts failing the run ends 502. -/
theorem person_upsert_retry_unconditional_witness :
    (upPersonDead.personUpsert.ok = false ∧
     upPersonDead.personCreate.ok = false) ∧
    ((handler "POST" envTok corpFields upAuthFail).calls.personCreateCalled
        = !upAuthFail.personUpsert.ok ∧
     (handler "POST" envTok corpFields upPersonDead).resp.status = 502) :=
  ⟨by decide,
   person_upsert_retry_unconditional envTok corpFields upAuthFail upPersonDead
     "tok" rfl (by decide) (by decide) (by decide) (by decide)⟩

/-- C7: domain normalization strips the scheme and a leading `www.` and
lowercases the hostname — `https://www.Example.com/pricing` yields
`example.com` — and when the website is absent or unparseable
(`normalizeDomain` yields `''`) the candidate domain falls back to the
domain portion of the email address. -/
theorem domain_normalization (website email : String)
    (hfail : normalizeDomain website = "") :
    normalizeDomain "https://www.Example.com/pricing" = "example.com" ∧
    candidateDomain website email = emailDomainOf email := by
  constructor
  · decide
  · unfold candidateDomain
    simp [hfail]

/-- C7 witness: the empty website is unparseable and falls back to the
email's domain portion. -/
theorem domain_normalization_witness :
    normalizeDomain "" = "" ∧
    (normalizeDomain "https://www.Example.com/pricing" = "example.com" ∧
     candidateDomain "" "ada@acme.com" = emailDomainOf "ada@acme.com") :=
  ⟨by decide, domain_normalization "" "ada@acme.com" (by decide)⟩

/-- C8: name splitting tokenizes on whitespace, takes the first token as
the first name and the remaining tokens joined by single spaces as the
last name — `Ada Lovelace` yields `("Ada", "Lovelace")` — and for a
single-token or empty name the missing parts default to the non-empty
placeholder `-`. -/
theorem name_splitting (fullE full1 fullN : String) (p1 pN q : String)
    (rest : List String)
    (h1 : nameTokens fullE = [])
    (h2 : nameTokens full1 = [p1])
    (h3 : nameTokens fullN = pN :: q :: rest) :
    splitName "Ada Lovelace" = ("Ada", "Lovelace") ∧
    splitName fullE = ("-", "-") ∧
    (splitName full1 = (p1, "-") ∧ p1 ≠ "") ∧
    splitName fullN = (pN, strIntercalate " " (q :: rest)) := by
  have hp1 : p1 ≠ "" := by
    have hmem : p1 ∈ nameTokens full1 := by rw [h2]; exact List.mem_cons_self _ _
    unfold nameTokens at hmem
    have := (List.mem_filter.mp hmem).2
    simpa using this
  have hpN : pN ≠ "" := by
    have hmem : pN ∈ nameTokens fullN := by rw [h3]; exact List.mem_cons_self _ _
    unfold nameTokens at hmem
    have := (List.mem_filter.mp hmem).2
    simpa using this
  refine ⟨by decide, ?_, ⟨?_, hp1⟩, ?_⟩
  · unfold splitName
    rw [h1]
  · unfold splitName
    rw [h2]
    simp [hp1]
  · unfold splitName
    rw [h3]
    simp [hpN]

/-- C8 witness: the empty name, `Ada`, and `Ada King Lovelace` exercise
the empty, single-token and multi-token cases. -/
theorem name_splitting_witness :
    (nameTokens "" = [] ∧ nameTokens "Ada" = ["Ada"] ∧
     nameTokens "Ada King Lovelace" = ["Ada", "King", "Lovelace"]) ∧
    (splitName "Ada Lovelace" = ("Ada", "Lovelace") ∧
     splitName "" = ("-", "-") ∧
     (splitName "Ada" = ("Ada", "-") ∧ "Ada" ≠ "") ∧
     splitName "Ada King Lovelace" = ("Ada", strIntercalate " " ["King", "Lovelace"])) :=
  ⟨by decide,
   name_splitting "" "Ada" "Ada King Lovelace" "Ada" "Ada" "King" ["Lovelace"]
     (by decide) (by decide) (by decide)⟩

/-- C9: the field extractor is total — a missing label yields the empty
default (`''` for `pickField`, `[]` for `pickMulti`) — label matching is
case-insensitive, and when several fields match a label the first in
submission order wins. -/
theorem field_extractor_contract (fieldsA fieldsB pre post : List Field)
    (f : Field) (labelA labelB labelB2 labelC : String)
    (hmiss : ∀ g ∈ fieldsA, labelMatches g labelA = false)
    (hcase : strToLower labelB = strToLower labelB2)
    (hpre : ∀ g ∈ pre, labelMatches g labelC = false)
    (hf : labelMatches f labelC = true) :
    pickField fieldsA labelA = FieldValue.vstr "" ∧
    pickMulti fieldsA labelA = [] ∧
    pickField fieldsB labelB = pickField fieldsB labelB2 ∧
    pickMulti fieldsB labelB = pickMulti fieldsB labelB2 ∧
    pickField (pre ++ f :: post) labelC
        = (if f.value.isFalsy then FieldValue.vstr "" else f.value) ∧
    pickMulti (pre ++ f :: post) labelC = multiOf f.value := by
  have hfindA : fieldsA.find? (fun g => labelMatches g labelA) = none :=
    List.find?_eq_none.mpr (by intro g hg; simp [hmiss g hg])
  have hpredEq : (fun g => labelMatches g labelB)
      = (fun g => labelMatches g labelB2) := by
    funext g
    unfold labelMatches
    rw [hcase]
  have hfindC : (pre ++ f :: post).find? (fun g => labelMatches g labelC) = some f :=
    find?_first _ pre post f hpre hf
  refine ⟨?_, ?_, ?_, ?_, ?_, ?_⟩
  · unfold pickField
    rw [hfindA]
  · unfold pickMulti
    rw [hfindA]
  · unfold pickField
    rw [hpredEq]
  · unfold pickMulti
    rw [hpredEq]
  · unfold pickField
    rw [hfindC]
  · unfold pickMulti
    rw [hfindC]

/-- C9 witness: a missing `Phone` field defaults, `EMAIL ADDRESS` and
`email address` extract identically, and the first matching field wins. -/
theorem field_extractor_contract_witness :
    ((∀ g ∈ corpFields, labelMatches g "Phone" = false) ∧
     strToLower "EMAIL ADDRESS" = strToLower "email address" ∧
     labelMatches fEx "email ADDRESS" = true) ∧
    (pickField corpFields "Phone" = FieldValue.vstr "" ∧
     pickMulti corpFields "Phone" = [] ∧
     pickField corpFields "EMAIL ADDRESS" = pickField corpFields "email address" ∧
     pickMulti corpFields "EMAIL ADDRESS" = pickMulti corpFields "email address" ∧
     pickField ([] ++ fEx :: []) "email ADDRESS"
        = (if fEx.value.isFalsy then FieldValue.vstr "" else fEx.value) ∧
     pickMulti ([] ++ fEx :: []) "email ADDRESS" = multiOf fEx.value) :=
  ⟨⟨by decide, by decide, by decide⟩,
   field_extractor_contract corpFields corpFields [] [] fEx
     "Phone" "EMAIL ADDRESS" "email address" "email ADDRESS"
     (by decide) (by decide) (by decide) (by decide)⟩

/-- C10: when every reached CRM call succeeds but no response body
matches a record-id shape recognized by `getId`, the handler still
responds 200 with `personId`, `companyId` and `dealId` all null, and the
deal's person association falls back to the email-based weak link. -/
theorem unrecognized_id_shapes_nonfatal (env : Env) (fields : List Field)
    (up : Upstream) (tok : String)
    (htok : env.attioToken = some tok)
    (htext : textualFields fields = true)
    (hemail : emailOf fields ≠ "")
    (hcid : getId up.company.body = none)
    (hpok : up.personUpsert.ok = true)
    (hpid : getId up.personUpsert.body = none)
    (hdok : up.deal.ok = true)
    (hdid : getId up.deal.body = none) :
    (handler "POST" env fields up).resp.status = 200 ∧
    (handler "POST" env fields up).resp.ok = true ∧
    (handler "POST" env fields up).resp.personId = none ∧
    (handler "POST" env fields up).resp.companyId = none ∧
    (handler "POST" env fields up).resp.dealId = none ∧
    dealPeopleLinkOf (handler "POST" env fields up)
        = some (PeopleLink.byEmail (emailOf fields)) := by
  rw [handler_post_eq env fields up tok htok hemail]
  unfold processSubmission finishDeal
  simp [hpok, hdok, hcid, hpid, hdid, mkDealValues, dealPeopleLinkOf]

/-- C10 witness: all three calls succeed with non-JSON bodies; the run is
200 with every reported id null and the person linked by email. -/
theorem unrecognized_id_shapes_nonfatal_witness :
    (getId upAllOk.company.body = none ∧ upAllOk.personUpsert.ok = true ∧
     getId upAllOk.personUpsert.body = none ∧ upAllOk.deal.ok = true ∧
     getId upAllOk.deal.body = none) ∧
    ((handler "POST" envTok corpFields upAllOk).resp.status = 200 ∧
     (handler "POST" envTok corpFields upAllOk).resp.ok = true ∧
     (handler "POST" envTok corpFields upAllOk).resp.personId = none ∧
     (handler "POST" envTok corpFields upAllOk).resp.companyId = none ∧
     (handler "POST" envTok corpFields upAllOk).resp.dealId = none ∧
     dealPeopleLinkOf (handler "POST" envTok corpFields upAllOk)
        = some (PeopleLink.byEmail (emailOf corpFields))) :=
  ⟨⟨rfl, rfl, rfl, rfl, rfl⟩,
   unrecognized_id_shapes_nonfatal envTok corpFields upAllOk "tok" rfl
     (by decide) (by decide) rfl rfl rfl rfl rfl⟩

end TallyWebhook
